import Mathlib

/-!
Verification of the checkpointed OpenAlex fetch-and-aggregate pipeline of the
top2percent repository.

The Python sources embedded here are
  scripts/data_collection/fetch_openalex_comprehensive.py   (the "comprehensive" variant)
  scripts/python/match_replicates_to_openalex.py            (the "replicate" variant)
  scripts/python/fetch_all_550_researchers.py               (calculate_h_index)

Machine integers do not occur: all Python numbers involved are unbounded ints
(modelled as Nat) or results of true division (modelled as Rat, which is exact
on every value the claims mention).  Remote HTTP endpoints are modelled as
oracles passed in explicitly; an exception raised by a network call is one
constructor of the oracle's answer type.
-/

/-! ## Python string primitives

Core `String.toLower`/`replace`/`trim` do not reduce in the kernel, so the
Python string operations are embedded directly over `List Char`.
-/

/-- Lower-casing, as Python `str.lower()` on the ASCII names in the tables. -/
def strLower (s : String) : String := ⟨s.data.map Char.toLower⟩

/-- Bool-valued prefix test on char lists. -/
def listPre : List Char → List Char → Bool
  | [], _ => true
  | _ :: _, [] => false
  | a :: as, b :: bs => a == b && listPre as bs

/-- Bool-valued infix (substring) test on char lists. -/
def listSub (needle : List Char) : List Char → Bool
  | [] => listPre needle []
  | b :: bs => listPre needle (b :: bs) || listSub needle bs

/-- Python `needle in haystack` on strings. -/
def strContains (haystack needle : String) : Bool := listSub needle.data haystack.data

/-- Python `s.replace(',', '')`. -/
def removeCommas (s : String) : String := ⟨s.data.filter (fun c => c ≠ ',')⟩

/-- Python `s.strip()`. -/
def pyStrip (s : String) : String :=
  ⟨((s.data.dropWhile Char.isWhitespace).reverse.dropWhile Char.isWhitespace).reverse⟩

/-- Name cleaning in `search_openalex_author`: `name.replace(',', '').strip()`. -/
def cleanName (name : String) : String := pyStrip (removeCommas name)

/-! ## Publisher Classifier

From `classify_publisher` and the module-level `PUBLISHER_GROUPS` table
(identical in both pipeline scripts).  Python dicts preserve insertion order,
so the table is an ordered association list.
-/

def PUBLISHER_GROUPS : List (String × List String) :=
  [ ("Elsevier", ["elsevier", "cell press", "the lancet", "academic press"])
  , ("Wiley", ["wiley", "john wiley", "wiley-blackwell", "blackwell"])
  , ("Springer Nature", ["springer", "nature", "palgrave", "springer nature", "bmc"])
  , ("Taylor & Francis", ["taylor", "francis", "routledge", "crc press", "informa"])
  , ("PLOS", ["plos", "public library of science"])
  , ("Frontiers", ["frontiers"])
  , ("MDPI", ["mdpi"])
  , ("Oxford", ["oxford university press", "oup"])
  , ("Cambridge", ["cambridge university press", "cup"])
  , ("IEEE", ["ieee", "institute of electrical"])
  , ("ACM", ["acm", "association for computing machinery"])
  , ("ACS", ["american chemical society", "acs publications"]) ]

/-- Python `any(variant in publisher_lower for variant in variants)`. -/
def groupMatches (publisher_lower : String) (gv : String × List String) : Bool :=
  gv.2.any (fun variant => strContains publisher_lower variant)

/-- `classify_publisher`: the guard `not publisher_name or publisher_name == 'Unknown'`
followed by a first-match scan of `PUBLISHER_GROUPS`. -/
def classify_publisher (publisher_name : String) : String :=
  if publisher_name = "" ∨ publisher_name = "Unknown" then "Unknown"
  else
    let publisher_lower := strLower publisher_name
    match PUBLISHER_GROUPS.find? (groupMatches publisher_lower) with
    | some gv => gv.1
    | none => "Other"

/-- `classify_publisher` on a possibly-null argument: Python `not None` is true,
so a null publisher is classified "Unknown". -/
def classify_publisher_opt : Option String → String
  | none => "Unknown"
  | some s => classify_publisher s

/-! helper lemmas about first-match search -/

theorem find?_of_first {α : Type} (p : α → Bool) :
    ∀ (pre : List α) (a : α) (post : List α),
      (∀ x ∈ pre, p x = false) → p a = true →
      List.find? p (pre ++ a :: post) = some a := by
  intro pre a post hpre ha
  induction pre with
  | nil => simpa using List.find?_cons_of_pos _ ha
  | cons x xs ih =>
      have hx : p x = false := hpre x (by simp)
      rw [List.cons_append, List.find?_cons_of_neg _ (by simp [hx])]
      exact ih (fun y hy => hpre y (by simp [hy]))

theorem classify_publisher_not_sentinel (s : String) (h1 : s ≠ "") (h2 : s ≠ "Unknown") :
    classify_publisher s =
      match PUBLISHER_GROUPS.find? (groupMatches (strLower s)) with
      | some gv => gv.1
      | none => "Other" := by
  unfold classify_publisher
  rw [if_neg (by simp [h1, h2])]

/-- C1 — amended.  For non-empty input different from the literal string
"Unknown", `classify_publisher` returns the first-declared group of
`PUBLISHER_GROUPS` whose variant list contains a substring of the lower-cased
input, and "Other" when no group matches; it returns "Unknown" for empty
input, for null input, and (the amendment) also for the literal input
"Unknown". -/
theorem classify_publisher_first_match :
    (∀ s : String, s ≠ "" → s ≠ "Unknown" →
      (∀ pre gv post, PUBLISHER_GROUPS = pre ++ gv :: post →
          (∀ gv' ∈ pre, groupMatches (strLower s) gv' = false) →
          groupMatches (strLower s) gv = true →
          classify_publisher s = gv.1) ∧
      ((∀ gv ∈ PUBLISHER_GROUPS, groupMatches (strLower s) gv = false) →
          classify_publisher s = "Other")) ∧
    classify_publisher "" = "Unknown" ∧
    classify_publisher "Unknown" = "Unknown" ∧
    classify_publisher_opt none = "Unknown" := by
  refine ⟨fun s h1 h2 => ⟨?_, ?_⟩, rfl, rfl, rfl⟩
  · intro pre gv post htab hpre hgv
    rw [classify_publisher_not_sentinel s h1 h2, htab, find?_of_first _ pre gv post hpre hgv]
  · intro hnone
    rw [classify_publisher_not_sentinel s h1 h2,
      List.find?_eq_none.mpr (fun x hx => by simp [hnone x hx])]

/-- C1 — witness: the amended theorem applied at the concrete input
"Elsevier B.V.", whose first (and only) matching group is Elsevier. -/
theorem classify_publisher_first_match_witness :
    classify_publisher "Elsevier B.V." = "Elsevier" := by
  have h := (classify_publisher_first_match.1 "Elsevier B.V." (by decide) (by decide)).1
    [] ("Elsevier", ["elsevier", "cell press", "the lancet", "academic press"])
    PUBLISHER_GROUPS.tail rfl (by simp) (by decide)
  exact h

/-- C1 — counterexample to the claim as stated: the input "Unknown" is
non-empty and its lower-casing contains no variant of any group, so the claim
requires "Other", but `classify_publisher` returns "Unknown" (the code also
maps the literal string 'Unknown' to the sentinel). -/
theorem classify_unknown_counterexample :
    classify_publisher "Unknown" = "Unknown" ∧
    ("Unknown" : String) ≠ "" ∧
    (PUBLISHER_GROUPS.all (fun gv => !groupMatches (strLower "Unknown") gv)) = true ∧
    classify_publisher "Unknown" ≠ "Other" := by
  exact ⟨rfl, by decide, by decide, by decide⟩

/-! ## Publication records

`fetch_all_works` turns each raw JSON work object into a flat dict.  `RawWork`
holds the JSON fields the loop body reads, after the `.get(..., default)`
defaults have been applied (`primary_location`/`source`/`open_access` being
absent or null yields the same defaults; a present-but-null
`host_organization_name` classifies identically to the 'Unknown' default). -/

structure RawWork where
  id : String := ""
  title : String := "Unknown"
  publication_year : Option Int := none
  type : String := "unknown"
  cited_by_count : Nat := 0
  host_organization_name : String := "Unknown"
  source_display_name : String := "Unknown"
  is_oa : Bool := false
  doi : Option String := none
  deriving DecidableEq

/-- One element of the `all_works` list built by `fetch_all_works`. -/
structure Work where
  work_id : String
  title : String
  year : Option Int
  type : String
  is_book : Bool
  cited_by_count : Nat
  venue : String
  publisher_raw : String
  publisher_group : String
  is_oa : Bool
  doi : Option String
  deriving DecidableEq

/-- The body of the `for work in results:` loop of `fetch_all_works`. -/
def extractWork (w : RawWork) : Work :=
  { work_id := w.id
    title := w.title
    year := w.publication_year
    type := w.type
    is_book := w.type = "book" ∨ w.type = "book-chapter" ∨ w.type = "monograph" ∨
      w.type = "edited-book"
    cited_by_count := w.cited_by_count
    venue := w.source_display_name
    publisher_raw := w.host_organization_name
    publisher_group := classify_publisher w.host_organization_name
    is_oa := w.is_oa
    doi := w.doi }

/-! ## Metrics computation (`calculate_metrics`)

Both scripts share the same non-empty-list body; they differ only on the empty
list.  Counts and sums are the pandas column operations written out over the
work list; percentages use Python float division, modelled exactly by `Rat`
(every value the claims mention is a dyadic-free exact rational).  The
`publisher_counts` field of the comprehensive variant (a JSON dump of the
per-group value counts) is not modelled: no claim concerns it and its dict
ordering follows pandas value_counts internals. -/

def totalWorks (ws : List Work) : Nat := ws.length

def totalCitations (ws : List Work) : Nat := (ws.map (fun w => w.cited_by_count)).sum

def booksCount (ws : List Work) : Nat := (ws.filter (fun w => w.is_book)).length

def articlesCount (ws : List Work) : Nat := (ws.filter (fun w => !w.is_book)).length

def oaCount (ws : List Work) : Nat := (ws.filter (fun w => w.is_oa)).length

def groupCount (g : String) (ws : List Work) : Nat :=
  (ws.filter (fun w => w.publisher_group == g)).length

def elsevierCitations (ws : List Work) : Nat :=
  ((ws.filter (fun w => w.publisher_group == "Elsevier")).map (fun w => w.cited_by_count)).sum

def oaPublisherCount (ws : List Work) : Nat :=
  groupCount "PLOS" ws + groupCount "Frontiers" ws + groupCount "MDPI" ws

/-- The Python idiom `num / den * 100 if den > 0 else 0`. -/
def pct (num den : Nat) : Rat := if 0 < den then (num : Rat) / (den : Rat) * 100 else 0

/-- The 19 metric fields produced for a non-empty work list, in source dict
order. -/
def metricsFields (ws : List Work) : List (String × Rat) :=
  [ ("total_works", (totalWorks ws : Rat))
  , ("total_citations", (totalCitations ws : Rat))
  , ("books_count", (booksCount ws : Rat))
  , ("books_pct", pct (booksCount ws) (totalWorks ws))
  , ("articles_count", (articlesCount ws : Rat))
  , ("oa_count", (oaCount ws : Rat))
  , ("oa_pct", pct (oaCount ws) (totalWorks ws))
  , ("elsevier_count", (groupCount "Elsevier" ws : Rat))
  , ("elsevier_pct", pct (groupCount "Elsevier" ws) (totalWorks ws))
  , ("elsevier_citations", (elsevierCitations ws : Rat))
  , ("elsevier_citations_pct", pct (elsevierCitations ws) (totalCitations ws))
  , ("wiley_count", (groupCount "Wiley" ws : Rat))
  , ("wiley_pct", pct (groupCount "Wiley" ws) (totalWorks ws))
  , ("springer_count", (groupCount "Springer Nature" ws : Rat))
  , ("springer_pct", pct (groupCount "Springer Nature" ws) (totalWorks ws))
  , ("plos_count", (groupCount "PLOS" ws : Rat))
  , ("frontiers_count", (groupCount "Frontiers" ws : Rat))
  , ("oa_publisher_count", (oaPublisherCount ws : Rat))
  , ("oa_publisher_pct", pct (oaPublisherCount ws) (totalWorks ws)) ]

/-- `calculate_metrics` of fetch_openalex_comprehensive.py: the empty list
yields a dict with only two keys. -/
def calculate_metrics_comp (ws : List Work) : List (String × Rat) :=
  if ws.isEmpty then [("total_works", 0), ("total_citations", 0)]
  else metricsFields ws

/-- `calculate_metrics` of match_replicates_to_openalex.py: the empty list
yields all 19 keys, explicitly zeroed. -/
def calculate_metrics_repl (ws : List Work) : List (String × Rat) :=
  if ws.isEmpty then
    [ ("total_works", 0), ("total_citations", 0), ("books_count", 0), ("books_pct", 0)
    , ("articles_count", 0), ("oa_count", 0), ("oa_pct", 0), ("elsevier_count", 0)
    , ("elsevier_pct", 0), ("elsevier_citations", 0), ("elsevier_citations_pct", 0)
    , ("wiley_count", 0), ("wiley_pct", 0), ("springer_count", 0), ("springer_pct", 0)
    , ("plos_count", 0), ("frontiers_count", 0), ("oa_publisher_count", 0)
    , ("oa_publisher_pct", 0) ]
  else metricsFields ws

theorem filter_length_split (ws : List Work) :
    booksCount ws + articlesCount ws = totalWorks ws := by
  unfold booksCount articlesCount totalWorks
  induction ws with
  | nil => rfl
  | cons w t ih =>
      by_cases hb : w.is_book <;> simp [List.filter, hb] <;> omega

/-- C2 — counterexample to the claim as stated: on the empty work list the
comprehensive variant of `calculate_metrics` returns a row holding only
`total_works` and `total_citations`; the count and percentage fields the claim
constrains are absent, so `books_count + articles_count == total_works` cannot
hold of the returned row. -/
theorem calculate_metrics_empty_missing_fields :
    (calculate_metrics_comp []).lookup "books_count" = none ∧
    (calculate_metrics_comp []).lookup "articles_count" = none ∧
    (calculate_metrics_comp []).lookup "books_pct" = none ∧
    calculate_metrics_comp [] = [("total_works", 0), ("total_citations", 0)] :=
  ⟨rfl, rfl, rfl, rfl⟩

/-- C2 — amended.  Both variants return for every work list (no division is
ever attempted with a zero denominator: each percentage is guarded).  The
replicate variant's row always carries all count/percentage fields and
satisfies `books_count + articles_count = total_works`,
`books_pct = books_count / total_works * 100` when `total_works > 0`, and
every percentage field is 0 when its denominator is 0.  The comprehensive
variant agrees with it on every non-empty list, but on the empty list returns
only the two total fields (both 0). -/
theorem calculate_metrics_identities (ws : List Work) :
    (calculate_metrics_repl ws).lookup "total_works" = some (totalWorks ws : Rat)
    ∧ (calculate_metrics_repl ws).lookup "books_count" = some (booksCount ws : Rat)
    ∧ (calculate_metrics_repl ws).lookup "articles_count" = some (articlesCount ws : Rat)
    ∧ booksCount ws + articlesCount ws = totalWorks ws
    ∧ (calculate_metrics_repl ws).lookup "books_pct" = some (pct (booksCount ws) (totalWorks ws))
    ∧ (0 < totalWorks ws →
        pct (booksCount ws) (totalWorks ws) =
          (booksCount ws : Rat) / (totalWorks ws : Rat) * 100)
    ∧ (totalWorks ws = 0 →
        (calculate_metrics_repl ws).lookup "books_pct" = some 0
        ∧ (calculate_metrics_repl ws).lookup "oa_pct" = some 0
        ∧ (calculate_metrics_repl ws).lookup "elsevier_pct" = some 0
        ∧ (calculate_metrics_repl ws).lookup "wiley_pct" = some 0
        ∧ (calculate_metrics_repl ws).lookup "springer_pct" = some 0
        ∧ (calculate_metrics_repl ws).lookup "oa_publisher_pct" = some 0)
    ∧ (totalCitations ws = 0 →
        (calculate_metrics_repl ws).lookup "elsevier_citations_pct" = some 0)
    ∧ (ws ≠ [] → calculate_metrics_comp ws = calculate_metrics_repl ws)
    ∧ (ws = [] → calculate_metrics_comp ws = [("total_works", 0), ("total_citations", 0)]) := by
  match ws with
  | [] =>
      refine ⟨by simp [calculate_metrics_repl, totalWorks], rfl, rfl, rfl, rfl, ?_, ?_, ?_, ?_, ?_⟩
      · intro h; simp [totalWorks] at h
      · intro _; exact ⟨rfl, rfl, rfl, rfl, rfl, rfl⟩
      · intro _; rfl
      · intro h; simp at h
      · intro _; rfl
  | w :: t =>
      have hrepl : calculate_metrics_repl (w :: t) = metricsFields (w :: t) := rfl
      have hT : totalWorks (w :: t) ≠ 0 := by simp [totalWorks]
      refine ⟨rfl, rfl, rfl, filter_length_split _, rfl, ?_, ?_, ?_, ?_, ?_⟩
      · intro h; simp [pct, h]
      · intro h; exact absurd h hT
      · intro hc
        rw [hrepl]
        show some (pct (elsevierCitations (w :: t)) (totalCitations (w :: t))) = some 0
        simp [pct, hc]
      · intro _; rfl
      · intro h; simp at h

/-- C2 — witness: the amended theorem at the empty list gives the two-field
comprehensive row and the count identity. -/
theorem calculate_metrics_identities_witness :
    calculate_metrics_comp [] = [("total_works", 0), ("total_citations", 0)] ∧
    booksCount [] + articlesCount [] = totalWorks [] := by
  obtain ⟨-, -, -, h4, -, -, -, -, -, h10⟩ := calculate_metrics_identities []
  exact ⟨h10 rfl, h4⟩

/-! ## Work Aggregator pagination (`fetch_all_works`)

The works endpoint is an oracle from page number to a response: either the
parsed JSON (`results` array and `meta.count`) or an exception raised anywhere
inside the `try` block (`err`).  The Python `while True:` loop is embedded
with explicit fuel; returning `none` means the fuel ran out, so genuine
non-termination of the source loop is `none` for every fuel. -/

inductive PageResult where
  | ok (results : List RawWork) (count : Nat)
  | err
  deriving DecidableEq

/-- `per_page = 200  # Max allowed`. -/
def PER_PAGE : Nat := 200

/-- The `results` array of a response; an exception delivers none. -/
def okResults : PageResult → List RawWork
  | .ok r _ => r
  | .err => []

/-- The `while True:` loop of `fetch_all_works`, one iteration per fuel unit:
an exception or an empty page breaks with the works accumulated so far;
otherwise the page's works are appended and the loop breaks when
`page * per_page >= count`. -/
def fetchPages (server : Nat → PageResult) : Nat → Nat → List Work → Option (List Work)
  | 0, _, _ => none
  | fuel + 1, page, acc =>
    match server page with
    | .err => some acc
    | .ok results count =>
      if results = [] then some acc
      else
        let acc' := acc ++ results.map extractWork
        if count ≤ page * PER_PAGE then some acc'
        else fetchPages server fuel (page + 1) acc'

/-- Splitting a char list at '/' (Python `s.split('/')`). -/
def splitSlashAux : List Char → List Char → List (List Char)
  | acc, [] => [acc.reverse]
  | acc, x :: xs =>
    if x = '/' then acc.reverse :: splitSlashAux [] xs else splitSlashAux (x :: acc) xs

/-- Python `author_id.split('/')[-1]` preceded by the `'openalex.org' in author_id`
guard at the top of `fetch_all_works`. -/
def cleanAuthorId (s : String) : String :=
  if strContains s "openalex.org"
  then ((splitSlashAux [] s.data).map (fun l => (⟨l⟩ : String))).getLastD ""
  else s

/-- `fetch_all_works`: clean the author id, then run the pagination loop from
page 1 with an empty accumulator. -/
def fetch_all_works (server : String → Nat → PageResult) (author_id : String) (fuel : Nat) :
    Option (List Work) :=
  fetchPages (server (cleanAuthorId author_id)) fuel 1 []


theorem fetchPages_succ (server : Nat → PageResult) (fuel page : Nat) (acc : List Work) :
    fetchPages server (fuel + 1) page acc =
      match server page with
      | .err => some acc
      | .ok results count =>
        if results = [] then some acc
        else if count ≤ page * PER_PAGE then some (acc ++ results.map extractWork)
        else fetchPages server fuel (page + 1) (acc ++ results.map extractWork) := rfl

theorem fetchPages_err_step {server : Nat → PageResult} {page : Nat}
    (fuel : Nat) (acc : List Work) (h : server page = .err) :
    fetchPages server (fuel + 1) page acc = some acc := by
  rw [fetchPages_succ, h]

theorem fetchPages_empty_step {server : Nat → PageResult} {page c : Nat}
    (fuel : Nat) (acc : List Work) (h : server page = .ok [] c) :
    fetchPages server (fuel + 1) page acc = some acc := by
  rw [fetchPages_succ, h]
  rfl

theorem fetchPages_break_step {server : Nat → PageResult} {page c : Nat} {r : List RawWork}
    (fuel : Nat) (acc : List Work) (h : server page = .ok r c) (hr : r ≠ [])
    (hc : c ≤ page * PER_PAGE) :
    fetchPages server (fuel + 1) page acc = some (acc ++ r.map extractWork) := by
  rw [fetchPages_succ, h]
  show (if r = [] then some acc else _) = _
  rw [if_neg hr, if_pos hc]

theorem fetchPages_next_step {server : Nat → PageResult} {page c : Nat} {r : List RawWork}
    (fuel : Nat) (acc : List Work) (h : server page = .ok r c) (hr : r ≠ [])
    (hc : ¬ c ≤ page * PER_PAGE) :
    fetchPages server (fuel + 1) page acc =
      fetchPages server fuel (page + 1) (acc ++ r.map extractWork) := by
  rw [fetchPages_succ, h]
  show (if r = [] then some acc else _) = _
  rw [if_neg hr, if_neg hc]

theorem fetchPages_some_of_bound (server : Nat → PageResult) (C : Nat)
    (hC : ∀ p r c, server p = .ok r c → c ≤ C) :
    ∀ fuel page acc, C ≤ page * 200 + fuel * 200 →
      ∃ out, fetchPages server (fuel + 1) page acc = some out := by
  intro fuel
  induction fuel with
  | zero =>
      intro page acc hle
      cases hsv : server page with
      | err => exact ⟨acc, fetchPages_err_step 0 acc hsv⟩
      | ok r c =>
          rcases eq_or_ne r [] with hr | hr
          · subst hr; exact ⟨acc, fetchPages_empty_step 0 acc hsv⟩
          · have hc := hC page r c hsv
            have hcnt : c ≤ page * PER_PAGE := by simp only [PER_PAGE]; omega
            exact ⟨acc ++ r.map extractWork, fetchPages_break_step 0 acc hsv hr hcnt⟩
  | succ f ih =>
      intro page acc hle
      cases hsv : server page with
      | err => exact ⟨acc, fetchPages_err_step (f + 1) acc hsv⟩
      | ok r c =>
          rcases eq_or_ne r [] with hr | hr
          · subst hr; exact ⟨acc, fetchPages_empty_step (f + 1) acc hsv⟩
          · by_cases hcnt : c ≤ page * PER_PAGE
            · exact ⟨acc ++ r.map extractWork, fetchPages_break_step (f + 1) acc hsv hr hcnt⟩
            · obtain ⟨out, hout⟩ := ih (page + 1) (acc ++ r.map extractWork) (by omega)
              exact ⟨out, by rw [fetchPages_next_step (f + 1) acc hsv hr hcnt]; exact hout⟩

/-- A consistent endpoint serving the fixed work list `L` in 200-sized pages
and reporting `count = L.length` on every response. -/
def serverOfList (L : List RawWork) (p : Nat) : PageResult :=
  .ok ((L.drop ((p - 1) * 200)).take 200) L.length

theorem fetchPages_serverOfList (L : List RawWork) :
    ∀ fuel page, 1 ≤ page → L.length ≤ (page - 1) * 200 + fuel * 200 + 200 →
      fetchPages (serverOfList L) (fuel + 1) page ((L.take ((page - 1) * 200)).map extractWork)
        = some (L.map extractWork) := by
  intro fuel
  induction fuel with
  | zero =>
      intro page hp hle
      rcases eq_or_ne ((L.drop ((page - 1) * 200)).take 200) [] with hres | hres
      · have hdrop : L.length ≤ (page - 1) * 200 := by
          rcases List.take_eq_nil_iff.mp hres with h | h
          · omega
          · exact List.drop_eq_nil_iff.mp h
        rw [fetchPages_empty_step 0 _ (by rw [show serverOfList L page =
          .ok ((L.drop ((page - 1) * 200)).take 200) L.length from rfl, hres]),
          List.take_of_length_le hdrop]
      · have hcnt : L.length ≤ page * PER_PAGE := by simp only [PER_PAGE]; omega
        rw [fetchPages_break_step 0 _ (show serverOfList L page =
          .ok ((L.drop ((page - 1) * 200)).take 200) L.length from rfl) hres hcnt,
          ← List.map_append, ← List.take_add]
        have h1 : (page - 1) * 200 + 200 = page * 200 := by omega
        rw [h1, List.take_of_length_le (by simp only [PER_PAGE] at hcnt; omega)]
  | succ f ih =>
      intro page hp hle
      rcases eq_or_ne ((L.drop ((page - 1) * 200)).take 200) [] with hres | hres
      · have hdrop : L.length ≤ (page - 1) * 200 := by
          rcases List.take_eq_nil_iff.mp hres with h | h
          · omega
          · exact List.drop_eq_nil_iff.mp h
        rw [fetchPages_empty_step (f + 1) _ (by rw [show serverOfList L page =
          .ok ((L.drop ((page - 1) * 200)).take 200) L.length from rfl, hres]),
          List.take_of_length_le hdrop]
      · by_cases hcnt : L.length ≤ page * PER_PAGE
        · rw [fetchPages_break_step (f + 1) _ (show serverOfList L page =
            .ok ((L.drop ((page - 1) * 200)).take 200) L.length from rfl) hres hcnt,
            ← List.map_append, ← List.take_add]
          have h1 : (page - 1) * 200 + 200 = page * 200 := by omega
          rw [h1, List.take_of_length_le (by simp only [PER_PAGE] at hcnt; omega)]
        · rw [fetchPages_next_step (f + 1) _ (show serverOfList L page =
            .ok ((L.drop ((page - 1) * 200)).take 200) L.length from rfl) hres hcnt,
            ← List.map_append, ← List.take_add]
          have h1 : (page - 1) * 200 + 200 = (page + 1 - 1) * 200 := by omega
          rw [h1]
          exact ih (page + 1) (by omega) (by simp only [PER_PAGE] at hcnt; omega)

/-- A misbehaving endpoint: every page returns one work yet reports a total
count strictly beyond what the pages served so far can reach, so the break
condition `page * per_page >= count` never fires. -/
def badServer (p : Nat) : PageResult := .ok [{}] (p * 200 + 1)

theorem badServer_no_fuel_suffices :
    ∀ fuel page acc, fetchPages badServer fuel page acc = none := by
  intro fuel
  induction fuel with
  | zero => intro page acc; rfl
  | succ f ih =>
      intro page acc
      rw [fetchPages_next_step f acc
        (show badServer page = .ok [{}] (page * 200 + 1) from rfl)
        (by simp) (by simp only [PER_PAGE]; omega)]
      exact ih _ _

/-- C3 — counterexample to the claim as stated: `fetch_all_works` has no hard
iteration ceiling, and against an endpoint whose reported total inflates with
every response (here `count = page * 200 + 1` with one work per page) the
`while True:` loop never takes any of its two break paths: even a million
loop iterations do not finish.  The loop diverges, so the pagination does not
terminate for every endpoint behaviour. -/
theorem fetch_pagination_nonterminating :
    fetchPages badServer 1000000 1 [] = none ∧ badServer 1 = .ok [{}] 201 :=
  ⟨badServer_no_fuel_suffices 1000000 1 [], rfl⟩

/-- C3 — amended.  The loop is bounded only by the empty-page break and the
`page * per_page >= count` break (there is no hard ceiling): whenever every
response reports a count at most a fixed `C`, the loop finishes within
`C / 200 + 2` iterations; and an endpoint consistently serving a list `L` and
reporting `count = L.length` yields exactly the items of `L`, in order. -/
theorem fetch_pagination_bounded :
    (∀ (server : Nat → PageResult) (C : Nat),
        (∀ p r c, server p = .ok r c → c ≤ C) →
        ∃ out, fetchPages server (C / 200 + 2) 1 [] = some out) ∧
    (∀ L : List RawWork,
        fetchPages (serverOfList L) (L.length / 200 + 2) 1 [] = some (L.map extractWork)) := by
  constructor
  · intro server C hC
    have h200 : 200 * (C / 200) + C % 200 = C := Nat.div_add_mod C 200
    have hmod : C % 200 < 200 := Nat.mod_lt _ (by norm_num)
    exact fetchPages_some_of_bound server C hC (C / 200 + 1) 1 [] (by omega)
  · intro L
    have h200 : 200 * (L.length / 200) + L.length % 200 = L.length := Nat.div_add_mod _ 200
    have hmod : L.length % 200 < 200 := Nat.mod_lt _ (by norm_num)
    have h := fetchPages_serverOfList L (L.length / 200 + 1) 1 (by omega) (by omega)
    simpa using h

/-- C3 — witness: the amended theorem's termination bound applied to the
endpoint that always reports count 0. -/
theorem fetch_pagination_bounded_witness :
    ∃ out, fetchPages (fun _ => PageResult.ok [] 0) (0 / 200 + 2) 1 [] = some out :=
  fetch_pagination_bounded.1 (fun _ => PageResult.ok [] 0) 0
    (fun _ r c h => by cases h; exact Nat.le_refl 0)

/-- The works accumulated from the pages strictly before page `p`. -/
def pagesBefore (server : Nat → PageResult) (p : Nat) : List Work :=
  ((List.range' 1 (p - 1)).map (fun q => (okResults (server q)).map extractWork)).flatten

theorem fetchPages_err_aux (server : Nat → PageResult) (p : Nat)
    (herr : server p = .err)
    (hprev : ∀ q, 1 ≤ q → q < p → ∃ r c, server q = .ok r c ∧ r ≠ [] ∧ ¬ c ≤ q * PER_PAGE) :
    ∀ fuel q acc, 1 ≤ q → q ≤ p → p - q < fuel →
      fetchPages server fuel q acc =
        some (acc ++ ((List.range' q (p - q)).map
          (fun q' => (okResults (server q')).map extractWork)).flatten) := by
  intro fuel
  induction fuel with
  | zero => intro q acc h1 h2 h3; omega
  | succ f ih =>
      intro q acc h1 h2 h3
      rcases eq_or_ne q p with hq | hq
      · subst hq
        rw [fetchPages_err_step f acc herr]
        simp
      · have hqp : q < p := lt_of_le_of_ne h2 hq
        obtain ⟨r, c, hok, hr, hc⟩ := hprev q h1 hqp
        rw [fetchPages_next_step f acc hok hr hc,
          ih (q + 1) _ (by omega) (by omega) (by omega)]
        have hn : p - q = (p - (q + 1)) + 1 := by omega
        rw [hn, List.range'_succ]
        simp [okResults, hok, List.append_assoc]

/-- If page `p` raises and every earlier page is non-empty and non-final, the
loop returns exactly the works accumulated from pages `1..p-1`. -/
theorem fetchPages_err_partial (server : Nat → PageResult) (p : Nat) (hp : 1 ≤ p)
    (herr : server p = .err)
    (hprev : ∀ q, 1 ≤ q → q < p → ∃ r c, server q = .ok r c ∧ r ≠ [] ∧ ¬ c ≤ q * PER_PAGE) :
    ∀ fuel, p ≤ fuel → fetchPages server fuel 1 [] = some (pagesBefore server p) := by
  intro fuel hf
  have h := fetchPages_err_aux server p herr hprev fuel 1 [] (Nat.le_refl 1) hp (by omega)
  simpa [pagesBefore] using h

/-! ## h-index (`calculate_h_index` of fetch_all_550_researchers.py) -/

/-- The `for i, cites in enumerate(sorted_cites, 1):` loop: `h` keeps the last
index `i` with `cites >= i`; the first failure breaks. -/
def hLoop : List Nat → Nat → Nat → Nat
  | [], _, h => h
  | c :: rest, i, h => if i ≤ c then hLoop rest (i + 1) i else h

/-- `calculate_h_index`: 0 on the empty list, otherwise the loop over the
descending sort of the citation counts.  Python's `sorted(_, reverse=True)` is
a stable descending sort; on `Nat` values every descending sort produces the
same list, so `List.insertionSort (· ≥ ·)` realises it. -/
def calculate_h_index (l : List Nat) : Nat :=
  if l = [] then 0 else hLoop (List.insertionSort (· ≥ ·) l) 1 0

/-- Length of the maximal prefix on which the loop keeps succeeding, starting
from index `i`. -/
def gAux : List Nat → Nat → Nat
  | [], _ => 0
  | c :: rest, i => if i ≤ c then gAux rest (i + 1) + 1 else 0

theorem gAux_cons (c : Nat) (rest : List Nat) (i : Nat) :
    gAux (c :: rest) i = if i ≤ c then gAux rest (i + 1) + 1 else 0 := rfl

theorem hLoop_eq_gAux : ∀ (s : List Nat) (i : Nat), 1 ≤ i →
    hLoop s i (i - 1) = (i - 1) + gAux s i := by
  intro s
  induction s with
  | nil => intro i _; rfl
  | cons c rest ih =>
      intro i h1
      show (if i ≤ c then hLoop rest (i + 1) i else (i - 1)) = (i - 1) + gAux (c :: rest) i
      by_cases hc : i ≤ c
      · rw [if_pos hc, gAux_cons, if_pos hc]
        have h := ih (i + 1) (by omega)
        have hi : i + 1 - 1 = i := by omega
        rw [hi] at h
        rw [h]
        omega
      · rw [if_neg hc, gAux_cons, if_neg hc]
        omega

theorem gAux_le_length : ∀ (s : List Nat) (i : Nat), gAux s i ≤ s.length := by
  intro s
  induction s with
  | nil => intro i; simp [gAux]
  | cons c rest ih =>
      intro i
      rw [gAux_cons]
      by_cases hc : i ≤ c
      · rw [if_pos hc]; have := ih (i + 1); simp only [List.length_cons]; omega
      · rw [if_neg hc]; simp

theorem gAux_take_ge : ∀ (s : List Nat), s.Sorted (· ≥ ·) → ∀ i, 1 ≤ i →
    ∀ x ∈ s.take (gAux s i), i - 1 + gAux s i ≤ x := by
  intro s
  induction s with
  | nil => intro _ i _ x hx; simp at hx
  | cons c rest ih =>
      intro hsort i hi x hx
      obtain ⟨hhead, hrest⟩ := List.sorted_cons.mp hsort
      rw [gAux_cons] at hx ⊢
      by_cases hc : i ≤ c
      · rw [if_pos hc] at hx ⊢
        rw [List.take_succ_cons] at hx
        rcases List.mem_cons.mp hx with hxc | hxr
        · subst hxc
          rcases Nat.eq_zero_or_pos (gAux rest (i + 1)) with hg | hg
          · omega
          · cases rest with
            | nil => simp [gAux] at hg
            | cons y rest' =>
                have hy : y ∈ (y :: rest').take (gAux (y :: rest') (i + 1)) := by
                  obtain ⟨n, hn⟩ : ∃ n, gAux (y :: rest') (i + 1) = n + 1 :=
                    ⟨gAux (y :: rest') (i + 1) - 1, by omega⟩
                  rw [hn, List.take_succ_cons]
                  exact List.mem_cons_self _ _
                have h1 := ih hrest (i + 1) (by omega) y hy
                have h2 : x ≥ y := hhead y (by simp)
                omega
        · have h1 := ih hrest (i + 1) (by omega) x hxr
          omega
      · rw [if_neg hc] at hx
        simp at hx

theorem gAux_drop_le : ∀ (s : List Nat), s.Sorted (· ≥ ·) → ∀ i, 1 ≤ i →
    ∀ x ∈ s.drop (gAux s i), x ≤ i - 1 + gAux s i := by
  intro s
  induction s with
  | nil => intro _ i _ x hx; simp at hx
  | cons c rest ih =>
      intro hsort i hi x hx
      obtain ⟨hhead, hrest⟩ := List.sorted_cons.mp hsort
      rw [gAux_cons] at hx ⊢
      by_cases hc : i ≤ c
      · rw [if_pos hc] at hx ⊢
        rw [List.drop_succ_cons] at hx
        have h1 := ih hrest (i + 1) (by omega) x hx
        omega
      · rw [if_neg hc] at hx ⊢
        rw [List.drop_zero] at hx
        rcases List.mem_cons.mp hx with hxc | hxr
        · subst hxc; omega
        · have := hhead x hxr; omega

theorem countP_ge_of_sorted (s : List Nat) (hs : s.Sorted (· ≥ ·)) :
    gAux s 1 ≤ s.countP (fun c => decide (gAux s 1 ≤ c)) := by
  have hall : ∀ x ∈ s.take (gAux s 1), gAux s 1 ≤ x := by
    intro x hx
    have := gAux_take_ge s hs 1 (Nat.le_refl 1) x hx
    omega
  have hlen : (s.take (gAux s 1)).length = gAux s 1 := by
    rw [List.length_take]
    have := gAux_le_length s 1
    omega
  have hcount : (s.take (gAux s 1)).countP (fun c => decide (gAux s 1 ≤ c)) = gAux s 1 := by
    rw [List.countP_eq_length.mpr (fun a ha => by simpa using hall a ha), hlen]
  have hsplit : s.countP (fun c => decide (gAux s 1 ≤ c)) =
      (s.take (gAux s 1)).countP (fun c => decide (gAux s 1 ≤ c)) +
      (s.drop (gAux s 1)).countP (fun c => decide (gAux s 1 ≤ c)) := by
    rw [← List.countP_append, List.take_append_drop]
  omega

theorem countP_lt_of_sorted (s : List Nat) (hs : s.Sorted (· ≥ ·)) (h : Nat)
    (hh : gAux s 1 < h) : s.countP (fun c => decide (h ≤ c)) < h := by
  have hdrop : (s.drop (gAux s 1)).countP (fun c => decide (h ≤ c)) = 0 := by
    refine List.countP_eq_zero.mpr (fun a ha => ?_)
    have := gAux_drop_le s hs 1 (Nat.le_refl 1) a ha
    simpa using by omega
  have htake : (s.take (gAux s 1)).countP (fun c => decide (h ≤ c)) ≤ gAux s 1 := by
    refine le_trans (List.countP_le_length _) ?_
    rw [List.length_take]
    omega
  have hsplit : s.countP (fun c => decide (h ≤ c)) =
      (s.take (gAux s 1)).countP (fun c => decide (h ≤ c)) +
      (s.drop (gAux s 1)).countP (fun c => decide (h ≤ c)) := by
    rw [← List.countP_append, List.take_append_drop]
  omega

theorem calculate_h_index_eq_gAux (l : List Nat) :
    calculate_h_index l = gAux (List.insertionSort (· ≥ ·) l) 1 := by
  unfold calculate_h_index
  rcases eq_or_ne l [] with h | h
  · subst h; rfl
  · rw [if_neg h]
    have h1 := hLoop_eq_gAux (List.insertionSort (· ≥ ·) l) 1 (Nat.le_refl 1)
    simpa using h1

/-- C10 — confirmed.  `calculate_h_index` returns the largest `h` such that at
least `h` entries of the citation list are `≥ h` (it is that large and no
larger value qualifies), returns 0 on the empty list, and never exceeds the
list's length. -/
theorem h_index_spec_correct (l : List Nat) :
    calculate_h_index l ≤ l.countP (fun c => decide (calculate_h_index l ≤ c))
    ∧ (∀ h, h ≤ l.countP (fun c => decide (h ≤ c)) → h ≤ calculate_h_index l)
    ∧ (l = [] → calculate_h_index l = 0)
    ∧ calculate_h_index l ≤ l.length := by
  have hperm := List.perm_insertionSort (· ≥ ·) l
  have hsort := List.sorted_insertionSort (· ≥ ·) l
  have heq := calculate_h_index_eq_gAux l
  refine ⟨?_, ?_, ?_, ?_⟩
  · rw [heq, ← List.Perm.countP_eq _ hperm]
    exact countP_ge_of_sorted _ hsort
  · intro h hcount
    by_contra hlt
    push_neg at hlt
    rw [heq] at hlt
    have hc := countP_lt_of_sorted _ hsort h hlt
    rw [List.Perm.countP_eq _ hperm] at hc
    omega
  · intro h; subst h; rfl
  · rw [heq]
    have h1 := gAux_le_length (List.insertionSort (· ≥ ·) l) 1
    have h2 := hperm.length_eq
    omega

/-- C10 — witness: the maximality direction at the concrete list `[5, 6]`,
whose h-index is 2. -/
theorem h_index_spec_witness : 2 ≤ calculate_h_index [5, 6] :=
  (h_index_spec_correct [5, 6]).2.1 2 (by decide)

/-! ## Checkpointed Batch Runner (`process_sample` of the comprehensive script)

Result rows are Python dicts with row-shape depending on the outcome, so a row
is an ordered association list over a sum of the value types that occur.  The
remote side is an oracle `Env`: `search` gives the authors endpoint's answer
for a cleaned name (`exn` = any exception raised in the `try` block), and
`works` gives the list `fetch_all_works` returns for an author id (that
function totalises its own errors, see `fetchPages`).  The per-author works
CSV written in the good path and the progress printing are not modelled; no
claim concerns them. -/

inductive Val where
  | n (q : Rat)
  | s (str : String)
  | b (bv : Bool)
  deriving DecidableEq

abbrev Row := List (String × Val)

/-- One roster row of `comprehensive_sample.csv`, restricted to the columns
`process_sample` reads. -/
structure RRow where
  sample_id : Nat
  authfull : String
  field : String
  field_type : String
  sample_stratum : String
  institution : String
  scopus_pubs : Nat
  scopus_citations : Nat
  scopus_h_index : Nat
  deriving DecidableEq, Inhabited

structure AuthorData where
  id : String
  display_name : String
  deriving DecidableEq, Inhabited

inductive SearchOutcome where
  | exn
  | ok (results : List AuthorData)
  deriving DecidableEq

structure Env where
  search : String → SearchOutcome
  works : String → List Work

/-- `search_openalex_author`: clean the name, one GET with the name as query;
any exception and an empty result list both yield None; otherwise the first
candidate is returned unconditionally.  The institution argument is accepted
and unused, as in the source. -/
def search_openalex_author (env : Env) (name : String) (institution : String) :
    Option AuthorData :=
  match env.search (cleanName name) with
  | .exn => none
  | .ok [] => none
  | .ok (a :: _) => some a

/-- The dict appended when the author search returns nothing (lines 315-326):
no count fields are present. -/
def notFoundRow (r : RRow) : Row :=
  [ ("sample_id", .n (r.sample_id : Rat)), ("authfull", .s r.authfull), ("field", .s r.field)
  , ("field_type", .s r.field_type), ("sample_stratum", .s r.sample_stratum)
  , ("scopus_pubs", .n (r.scopus_pubs : Rat)), ("scopus_citations", .n (r.scopus_citations : Rat))
  , ("scopus_h_index", .n (r.scopus_h_index : Rat)), ("openalex_found", .b false)
  , ("match_quality", .s "not_found") ]

/-- The dict appended when the author resolved but `fetch_all_works` returned
an empty list (lines 344-358). -/
def foundNoWorksRow (r : RRow) (a : AuthorData) : Row :=
  [ ("sample_id", .n (r.sample_id : Rat)), ("authfull", .s r.authfull), ("field", .s r.field)
  , ("field_type", .s r.field_type), ("sample_stratum", .s r.sample_stratum)
  , ("scopus_pubs", .n (r.scopus_pubs : Rat)), ("scopus_citations", .n (r.scopus_citations : Rat))
  , ("scopus_h_index", .n (r.scopus_h_index : Rat)), ("openalex_found", .b true)
  , ("openalex_id", .s a.id), ("openalex_name", .s a.display_name)
  , ("openalex_pubs", .n 0), ("match_quality", .s "found_no_works") ]

/-- The dict appended in the good path (lines 383-401): base fields, coverage
ratios, then `**metrics`. -/
def goodRow (r : RRow) (a : AuthorData) (works : List Work) : Row :=
  let metrics := calculate_metrics_comp works
  let openalex_pubs : Rat := (metrics.lookup "total_works").getD 0
  let openalex_citations : Rat := (metrics.lookup "total_citations").getD 0
  let coverage_ratio : Rat :=
    if 0 < openalex_pubs then (r.scopus_pubs : Rat) / openalex_pubs else 0
  let citation_coverage : Rat :=
    if 0 < openalex_citations then (r.scopus_citations : Rat) / openalex_citations else 0
  [ ("sample_id", .n (r.sample_id : Rat)), ("authfull", .s r.authfull), ("field", .s r.field)
  , ("field_type", .s r.field_type), ("sample_stratum", .s r.sample_stratum)
  , ("scopus_pubs", .n (r.scopus_pubs : Rat)), ("scopus_citations", .n (r.scopus_citations : Rat))
  , ("scopus_h_index", .n (r.scopus_h_index : Rat)), ("openalex_found", .b true)
  , ("openalex_id", .s a.id), ("openalex_name", .s a.display_name)
  , ("openalex_pubs", .n openalex_pubs), ("openalex_citations", .n openalex_citations)
  , ("coverage_ratio", .n coverage_ratio), ("citation_coverage", .n citation_coverage)
  , ("match_quality", .s "good") ]
  ++ metrics.map (fun kv => (kv.1, Val.n kv.2))

inductive Outcome where
  | notFound
  | foundNoWorks
  | good
  deriving DecidableEq

/-- Which of the three terminal row shapes a roster row produces. -/
def rowOutcome (env : Env) (r : RRow) : Outcome :=
  match search_openalex_author env r.authfull r.institution with
  | none => .notFound
  | some a => if env.works a.id = [] then .foundNoWorks else .good

/-- The body of the `for idx in ...` loop for one roster row. -/
def processRow (env : Env) (r : RRow) : Row :=
  match search_openalex_author env r.authfull r.institution with
  | none => notFoundRow r
  | some a =>
    let works := env.works a.id
    if works = [] then foundNoWorksRow r a else goodRow r a works

structure RunState where
  results : List Row
  cp : Option (List Row)
  searchCalls : Nat
  deriving DecidableEq

def CHECKPOINT_INTERVAL : Nat := 50

/-- The row loop of `process_sample`.  A flush (`checkpoint_df.to_csv`) is
reached only in the good path — the not-found and no-works branches `continue`
before the checkpoint block — and writes the full in-memory result list.
`searchCalls` counts the author-search requests issued, one per row. -/
def stepLoop (env : Env) (k : Nat) : List RRow → Nat → RunState → RunState
  | [], _, st => st
  | r :: rest, idx, st =>
    let row := processRow env r
    let results' := st.results ++ [row]
    let cp' := if (idx + 1) % k = 0 ∧ rowOutcome env r = .good then some results' else st.cp
    stepLoop env k rest (idx + 1)
      { results := results', cp := cp', searchCalls := st.searchCalls + 1 }

def initState : RunState := { results := [], cp := none, searchCalls := 0 }

/-- `process_sample`: if the checkpoint file exists its rows are loaded and
the loop resumes at exactly its length; otherwise the loop starts fresh. -/
def process_sample (env : Env) (k : Nat) (roster : List RRow) (cpFile : Option (List Row)) :
    RunState :=
  match cpFile with
  | none => stepLoop env k roster 0 initState
  | some rows => stepLoop env k (roster.drop rows.length) rows.length
      { results := rows, cp := some rows, searchCalls := 0 }

/-- The run state of a from-scratch run after its first `m` rows. -/
def stateAfter (env : Env) (k : Nat) (roster : List RRow) (m : Nat) : RunState :=
  stepLoop env k (roster.take m) 0 initState

theorem stepLoop_cons (env : Env) (k : Nat) (r : RRow) (rest : List RRow) (idx : Nat)
    (st : RunState) :
    stepLoop env k (r :: rest) idx st =
      stepLoop env k rest (idx + 1)
        { results := st.results ++ [processRow env r]
          cp := if (idx + 1) % k = 0 ∧ rowOutcome env r = .good
                then some (st.results ++ [processRow env r]) else st.cp
          searchCalls := st.searchCalls + 1 } := rfl

theorem stepLoop_results (env : Env) (k : Nat) :
    ∀ (rest : List RRow) (idx : Nat) (st : RunState),
      (stepLoop env k rest idx st).results = st.results ++ rest.map (processRow env) := by
  intro rest
  induction rest with
  | nil => intro idx st; simp [stepLoop]
  | cons r t ih =>
      intro idx st
      rw [stepLoop_cons, ih]
      simp

theorem stepLoop_calls (env : Env) (k : Nat) :
    ∀ (rest : List RRow) (idx : Nat) (st : RunState),
      (stepLoop env k rest idx st).searchCalls = st.searchCalls + rest.length := by
  intro rest
  induction rest with
  | nil => intro idx st; simp [stepLoop]
  | cons r t ih =>
      intro idx st
      rw [stepLoop_cons, ih]
      simp
      omega

theorem stepLoop_cp_stays (env : Env) (k : Nat) :
    ∀ (rest : List RRow) (idx : Nat) (st : RunState) (rows : List Row),
      st.cp = some rows → (stepLoop env k rest idx st).cp ≠ none := by
  intro rest
  induction rest with
  | nil => intro idx st rows h; simp [stepLoop, h]
  | cons r t ih =>
      intro idx st rows h
      rw [stepLoop_cons]
      by_cases hc : (idx + 1) % k = 0 ∧ rowOutcome env r = .good
      · exact ih _ _ (st.results ++ [processRow env r]) (by simp [hc])
      · exact ih _ _ rows (by simp [hc, h])

theorem stepLoop_append (env : Env) (k : Nat) :
    ∀ (xs ys : List RRow) (idx : Nat) (st : RunState),
      stepLoop env k (xs ++ ys) idx st =
        stepLoop env k ys (idx + xs.length) (stepLoop env k xs idx st) := by
  intro xs
  induction xs with
  | nil => intro ys idx st; simp [stepLoop]
  | cons r t ih =>
      intro ys idx st
      rw [List.cons_append, stepLoop_cons, ih, stepLoop_cons]
      have : idx + 1 + t.length = idx + (t.length + 1) := by omega
      rw [this]
      rfl

/-- Checkpoint-file invariant after `m` processed rows: the file is absent, or
it holds exactly the images of a non-empty roster prefix whose last row was a
good (fully aggregated) row at a flush index. -/
def cpInv (env : Env) (k : Nat) (roster : List RRow) (m : Nat) (cp : Option (List Row)) : Prop :=
  cp = none ∨ ∃ j, 0 < j ∧ j ≤ m ∧ j ≤ roster.length ∧ j % k = 0 ∧
    rowOutcome env (roster.getD (j - 1) default) = .good ∧
    cp = some ((roster.take j).map (processRow env))

theorem stepLoop_invariant (env : Env) (k : Nat) (roster : List RRow) :
    ∀ (rest : List RRow) (idx : Nat) (st : RunState),
      roster.drop idx = rest →
      st.results = (roster.take idx).map (processRow env) →
      cpInv env k roster idx st.cp →
      (stepLoop env k rest idx st).results = roster.map (processRow env) ∧
      cpInv env k roster roster.length (stepLoop env k rest idx st).cp := by
  intro rest
  induction rest with
  | nil =>
      intro idx st hdrop hres hcp
      have hlen : roster.length ≤ idx := List.drop_eq_nil_iff.mp hdrop
      constructor
      · show st.results = _
        rw [hres, List.take_of_length_le hlen]
      · show cpInv env k roster roster.length st.cp
        rcases hcp with h | ⟨j, hj0, hjm, hjlen, hjk, hout, hcpv⟩
        · exact Or.inl h
        · exact Or.inr ⟨j, hj0, hjlen, hjlen, hjk, hout, hcpv⟩
  | cons r rest' ih =>
      intro idx st hdrop hres hcp
      have hidx : idx < roster.length := by
        by_contra hge
        push_neg at hge
        have h0 : roster.drop idx = [] := List.drop_eq_nil_iff.mpr hge
        rw [h0] at hdrop
        exact absurd hdrop (by simp)
      have hr : roster[idx]? = some r := by
        have h0 := List.getElem?_drop roster idx 0
        rw [hdrop] at h0
        simpa using h0.symm
      have hrget : roster.getD idx default = r := by
        rw [List.getD_eq_getElem _ _ hidx]
        have := List.getElem?_eq_getElem hidx
        rw [this] at hr
        exact Option.some.inj hr
      have htake : roster.take (idx + 1) = roster.take idx ++ [r] := by
        rw [List.take_succ, hr]
        rfl
      have hdrop' : roster.drop (idx + 1) = rest' := by
        have h1 : roster.drop (idx + 1) = (roster.drop idx).drop 1 := by
          rw [List.drop_drop]
        rw [h1, hdrop]
        rfl
      rw [stepLoop_cons]
      apply ih (idx + 1) _ hdrop'
      · show st.results ++ [processRow env r] = _
        rw [htake, List.map_append, hres]
        rfl
      · show cpInv env k roster (idx + 1)
          (if (idx + 1) % k = 0 ∧ rowOutcome env r = .good
           then some (st.results ++ [processRow env r]) else st.cp)
      
        by_cases hcond : (idx + 1) % k = 0 ∧ rowOutcome env r = .good
        · rw [if_pos hcond]
          refine Or.inr ⟨idx + 1, by omega, Nat.le_refl _, by omega, hcond.1, ?_, ?_⟩
          · have h1 : idx + 1 - 1 = idx := by omega
            rw [h1, hrget]
            exact hcond.2
          · rw [htake, List.map_append, hres]
            rfl
        · rw [if_neg hcond]
          rcases hcp with h | ⟨j, hj0, hjm, hjlen, hjk, hout, hcpv⟩
          · exact Or.inl h
          · exact Or.inr ⟨j, hj0, by omega, hjlen, hjk, hout, hcpv⟩

/-- Transfer of the invariant from a truncated roster to the full roster. -/
theorem cpInv_take (env : Env) (k : Nat) (roster : List RRow) (m : Nat)
    (cp : Option (List Row)) (hm : m ≤ roster.length)
    (h : cpInv env k (roster.take m) (roster.take m).length cp) :
    cp = none ∨ ∃ j, 0 < j ∧ j ≤ m ∧ j % k = 0 ∧
      rowOutcome env (roster.getD (j - 1) default) = .good ∧
      cp = some ((roster.take j).map (processRow env)) := by
  rcases h with h | ⟨j, hj0, hjm, hjlen, hjk, hout, hcpv⟩
  · exact Or.inl h
  · rw [List.length_take] at hjm
    have hjm' : j ≤ m := le_trans hjm (min_le_left _ _)
    refine Or.inr ⟨j, hj0, hjm', hjk, ?_, ?_⟩
    · have hlt : j - 1 < (roster.take m).length := by
        rw [List.length_take]
        omega
      have hlt2 : j - 1 < roster.length := by omega
      rw [List.getD_eq_getElem _ _ hlt, List.getElem_take] at hout
      rw [List.getD_eq_getElem _ _ hlt2]
      exact hout
    · rw [List.take_take, min_eq_left hjm'] at hcpv
      exact hcpv

theorem processRow_notFound {env : Env} {r : RRow}
    (h : env.search (cleanName r.authfull) = .exn ∨ env.search (cleanName r.authfull) = .ok []) :
    processRow env r = notFoundRow r := by
  unfold processRow search_openalex_author
  rcases h with h | h <;> rw [h]

/-- C4 — amended.  In a from-scratch run the state after `m` rows is the state
the full run passes through; its result list is exactly the images of the
first `m` roster rows (roster order, no gaps).  The checkpoint file, however,
is flushed only when the row making the count a multiple of the interval was
fully aggregated (the not-found and no-works branches skip the flush), so at
any moment it is either absent or a prefix image ending at such a good flush
row — not necessarily `m` rows.  Resuming from a checkpoint of any length
starts at exactly that length: the loaded rows are kept verbatim and only the
remaining roster rows are processed. -/
theorem checkpoint_invariant (env : Env) (k : Nat) (roster : List RRow) (m : Nat)
    (hk : 0 < k) (hm : m ≤ roster.length) :
    (stepLoop env k roster 0 initState =
      stepLoop env k (roster.drop m) m (stateAfter env k roster m)) ∧
    (stateAfter env k roster m).results = (roster.take m).map (processRow env) ∧
    ((stateAfter env k roster m).cp = none ∨
      ∃ j, 0 < j ∧ j ≤ m ∧ j % k = 0 ∧
        rowOutcome env (roster.getD (j - 1) default) = .good ∧
        (stateAfter env k roster m).cp = some ((roster.take j).map (processRow env))) ∧
    (∀ rows : List Row, (process_sample env k roster (some rows)).results =
        rows ++ (roster.drop rows.length).map (processRow env)) := by
  refine ⟨?_, ?_, ?_, ?_⟩
  · have h := stepLoop_append env k (roster.take m) (roster.drop m) 0 initState
    rw [List.take_append_drop] at h
    rw [h, List.length_take, min_eq_left hm, Nat.zero_add]
    rfl
  · rw [stateAfter, stepLoop_results]
    rfl
  · have h := stepLoop_invariant env k (roster.take m) (roster.take m) 0 initState
      (by rw [List.drop_zero]) (by simp [initState]) (Or.inl rfl)
    exact cpInv_take env k roster m _ hm h.2
  · intro rows
    show (stepLoop env k (roster.drop rows.length) rows.length
      { results := rows, cp := some rows, searchCalls := 0 }).results = _
    rw [stepLoop_results]

/-- C4 — witness: the amended theorem at a 2-row roster, interval 1, after 1
row. -/
theorem checkpoint_invariant_witness :
    (stateAfter { search := fun _ => .ok [], works := fun _ => [] } 1
        (List.replicate 2 default) 1).results =
      ((List.replicate 2 (default : RRow)).take 1).map
        (processRow { search := fun _ => .ok [], works := fun _ => [] }) :=
  (checkpoint_invariant { search := fun _ => .ok [], works := fun _ => [] } 1
    (List.replicate 2 default) 1 (by decide) (by decide)).2.1

/-- A roster row and an environment where no researcher is found. -/
def rDemo : RRow :=
  { sample_id := 1, authfull := "Doe, J.", field := "Physics"
    field_type := "journal_heavy", sample_stratum := "top", institution := "X"
    scopus_pubs := 10, scopus_citations := 100, scopus_h_index := 5 }

def envNotFound : Env := { search := fun _ => .ok [], works := fun _ => [] }

/-- C4 — counterexample to the claim as stated: with a 50-row roster whose
50th row is a not-found row, the run processes 50 = CHECKPOINT_INTERVAL rows
yet never writes the checkpoint (the not-found branch continues before the
flush block), so the checkpoint's row count (no file) differs from the 50 rows
processed so far. -/
theorem checkpoint_skipped_on_not_found :
    (process_sample envNotFound CHECKPOINT_INTERVAL (List.replicate 50 rDemo) none).results.length
      = 50 ∧
    (process_sample envNotFound CHECKPOINT_INTERVAL (List.replicate 50 rDemo) none).cp = none :=
  ⟨rfl, rfl⟩

/-- C5 — confirmed.  Interrupting a run after exactly `m * k` processed rows
keeps on disk a checkpoint that is either absent or a processed-prefix image;
resuming from it and finishing yields exactly the result rows of an
uninterrupted run over the same roster and oracle, row for row in roster
order. -/
theorem resume_equals_uninterrupted (env : Env) (roster : List RRow) (k m : Nat)
    (hk : 0 < k) (hm : m * k ≤ roster.length) :
    (process_sample env k roster ((stateAfter env k roster (m * k)).cp)).results =
      (process_sample env k roster none).results := by
  have hfull : (process_sample env k roster none).results = roster.map (processRow env) := by
    show (stepLoop env k roster 0 initState).results = _
    rw [stepLoop_results]
    rfl
  have hinv := stepLoop_invariant env k (roster.take (m * k)) (roster.take (m * k)) 0 initState
    (by rw [List.drop_zero]) (by simp [initState]) (Or.inl rfl)
  have hcp := cpInv_take env k roster (m * k) _ hm hinv.2
  have hs : (stateAfter env k roster (m * k)).cp =
      (stepLoop env k (List.take (m * k) roster) 0 initState).cp := rfl
  rcases hcp with hnone | ⟨j, hj0, hjm, hjk, hout, hcpv⟩
  · rw [hs, hnone]
  · rw [hs, hcpv]
    show (stepLoop env k (roster.drop ((roster.take j).map (processRow env)).length)
      ((roster.take j).map (processRow env)).length _).results = _
    rw [stepLoop_results]
    have hjlen : ((roster.take j).map (processRow env)).length = j := by
      rw [List.length_map, List.length_take, min_eq_left (by omega)]
    rw [hjlen, hfull]
    show (roster.take j).map (processRow env) ++ (roster.drop j).map (processRow env) =
      roster.map (processRow env)
    rw [← List.map_append, List.take_append_drop]

/-- C5 — witness: interval 1, interruption after 2 rows of a 3-row roster. -/
theorem resume_equals_uninterrupted_witness :
    (process_sample envNotFound 1 (List.replicate 3 rDemo)
        ((stateAfter envNotFound 1 (List.replicate 3 rDemo) (2 * 1)).cp)).results =
      (process_sample envNotFound 1 (List.replicate 3 rDemo) none).results :=
  resume_equals_uninterrupted envNotFound (List.replicate 3 rDemo) 1 2 (by decide) (by decide)

/-- C6 — confirmed.  If the author search for roster row `idx` fails — an
exception (timeout, non-2xx, malformed payload) or zero candidates — the run
still produces one output row per roster row, row `idx` is exactly the
terminal not-found row (`openalex_found=False`, `match_quality='not_found'`),
and exactly one search call is issued per roster row, so the failing row is
never retried and the batch is not aborted. -/
theorem search_failure_terminal_not_found (env : Env) (roster : List RRow) (k idx : Nat)
    (hidx : idx < roster.length)
    (hfail : env.search (cleanName (roster.getD idx default).authfull) = .exn ∨
             env.search (cleanName (roster.getD idx default).authfull) = .ok []) :
    (process_sample env k roster none).results.length = roster.length ∧
    (process_sample env k roster none).results.getD idx [] =
      notFoundRow (roster.getD idx default) ∧
    (notFoundRow (roster.getD idx default)).lookup "openalex_found" = some (.b false) ∧
    (notFoundRow (roster.getD idx default)).lookup "match_quality" = some (.s "not_found") ∧
    (process_sample env k roster none).searchCalls = roster.length := by
  have hres : (process_sample env k roster none).results = roster.map (processRow env) := by
    show (stepLoop env k roster 0 initState).results = _
    rw [stepLoop_results]
    rfl
  refine ⟨?_, ?_, rfl, rfl, ?_⟩
  · rw [hres, List.length_map]
  · rw [hres]
    have hlt : idx < (roster.map (processRow env)).length := by
      rw [List.length_map]; exact hidx
    rw [List.getD_eq_getElem _ _ hlt, List.getElem_map, ← List.getD_eq_getElem _ default hidx]
    exact processRow_notFound hfail
  · show (stepLoop env k roster 0 initState).searchCalls = _
    rw [stepLoop_calls]
    simp [initState]

/-- C6 — witness: a 1-row roster whose search returns zero candidates. -/
theorem search_failure_terminal_not_found_witness :
    (process_sample envNotFound 50 [rDemo] none).results.getD 0 [] =
      notFoundRow (([rDemo] : List RRow).getD 0 default) :=
  (search_failure_terminal_not_found envNotFound [rDemo] 50 0 (by decide) (Or.inr rfl)).2.1

theorem processRow_found {env : Env} {r : RRow} {a : AuthorData} {cands : List AuthorData}
    (h : env.search (cleanName r.authfull) = .ok (a :: cands)) :
    processRow env r =
      if env.works a.id = [] then foundNoWorksRow r a else goodRow r a (env.works a.id) := by
  unfold processRow search_openalex_author
  rw [h]

/-- C7 — confirmed.  If page `p` of an author's works fetch raises while all
earlier pages were non-empty and non-final, the loop stops that author's
pagination only and returns exactly the items accumulated from pages `1..p-1`
unchanged; the runner then gives that researcher the row computed from this
partial list (the metrics row `goodRow` when it is non-empty; when the
exception hit the first page, the partial list is empty and the row is the
found-no-works row, which §3 of the spec also counts as a metrics row) and
still produces one row for every roster row instead of aborting. -/
theorem page_error_keeps_accumulated (server : Nat → PageResult) (p : Nat) (hp : 1 ≤ p)
    (herr : server p = .err)
    (hprev : ∀ q, 1 ≤ q → q < p → ∃ r c, server q = .ok r c ∧ r ≠ [] ∧ ¬ c ≤ q * PER_PAGE) :
    (∀ fuel, p ≤ fuel → fetchPages server fuel 1 [] = some (pagesBefore server p)) ∧
    (∀ (env : Env) (roster : List RRow) (k idx : Nat) (a : AuthorData)
        (cands : List AuthorData),
      idx < roster.length →
      env.search (cleanName (roster.getD idx default).authfull) = .ok (a :: cands) →
      env.works a.id = pagesBefore server p →
      (process_sample env k roster none).results.length = roster.length ∧
      (pagesBefore server p ≠ [] →
        (process_sample env k roster none).results.getD idx [] =
          goodRow (roster.getD idx default) a (pagesBefore server p)) ∧
      (pagesBefore server p = [] →
        (process_sample env k roster none).results.getD idx [] =
          foundNoWorksRow (roster.getD idx default) a)) := by
  constructor
  · exact fetchPages_err_partial server p hp herr hprev
  · intro env roster k idx a cands hidx hsearch hworks
    have hres : (process_sample env k roster none).results = roster.map (processRow env) := by
      show (stepLoop env k roster 0 initState).results = _
      rw [stepLoop_results]
      rfl
    have hget : (process_sample env k roster none).results.getD idx [] =
        processRow env (roster.getD idx default) := by
      rw [hres]
      have hlt : idx < (roster.map (processRow env)).length := by
        rw [List.length_map]
        exact hidx
      rw [List.getD_eq_getElem _ _ hlt, List.getElem_map, ← List.getD_eq_getElem _ default hidx]
    refine ⟨by rw [hres, List.length_map], ?_, ?_⟩
    · intro hne
      rw [hget, processRow_found hsearch, hworks, if_neg hne]
    · intro heq
      rw [hget, processRow_found hsearch, hworks, if_pos heq]

/-- A works endpoint that serves one non-final page and then raises. -/
def errPageServer (q : Nat) : PageResult := if q = 1 then .ok [{}] 500 else .err

def authorDemo : AuthorData := { id := "https://openalex.org/A9", display_name := "Demo" }

def envC7 : Env :=
  { search := fun _ => .ok [authorDemo], works := fun _ => pagesBefore errPageServer 2 }

/-- C7 — witness: the exception hits page 2; page 1's 200-short page is kept
and the runner's row for the researcher is the metrics row of that partial
list. -/
theorem page_error_keeps_accumulated_witness :
    fetchPages errPageServer 2 1 [] = some (pagesBefore errPageServer 2) ∧
    (process_sample envC7 50 [rDemo] none).results.getD 0 [] =
      goodRow (([rDemo] : List RRow).getD 0 default) authorDemo (pagesBefore errPageServer 2) := by
  have h := page_error_keeps_accumulated errPageServer 2 (by decide) rfl
    (fun q h1 h2 => by
      have hq : q = 1 := by omega
      subst hq
      exact ⟨[{}], 500, rfl, by simp, by simp only [PER_PAGE]; omega⟩)
  refine ⟨h.1 2 (Nat.le_refl 2), ?_⟩
  exact (h.2 envC7 [rDemo] 50 0 authorDemo [] (by decide) rfl rfl).2.1 (by decide)

/-! ## End-to-end scenario (C8) -/

def rawElsArticle : RawWork :=
  { id := "W1", title := "T1", publication_year := some 2020, type := "article"
    cited_by_count := 10, host_organization_name := "Elsevier BV"
    source_display_name := "J1", is_oa := false, doi := some "d1" }

def rawOtherBook : RawWork :=
  { id := "W2", title := "T2", publication_year := some 2018, type := "book"
    cited_by_count := 5, source_display_name := "P1", is_oa := false, doi := none }

/-- The works of researcher (b), as returned by the pagination loop run
against the mocked endpoint. -/
def worksB : List Work :=
  (fetchPages (serverOfList [rawElsArticle, rawOtherBook]) 3 1 []).getD []

def authorB : AuthorData := { id := "https://openalex.org/A2", display_name := "Beta Author" }

def authorC : AuthorData := { id := "https://openalex.org/A3", display_name := "Gamma Author" }

def rA : RRow :=
  { sample_id := 1, authfull := "Alpha, A.", field := "History", field_type := "book_heavy"
    sample_stratum := "s1", institution := "U1", scopus_pubs := 50, scopus_citations := 300
    scopus_h_index := 9 }

def rB : RRow := { rA with sample_id := 2, authfull := "Beta, B." }

def rC : RRow := { rA with sample_id := 3, authfull := "Gamma, C." }

def rosterC8 : List RRow := [rA, rB, rC]

def envC8 : Env :=
  { search := fun n =>
      if n = cleanName "Alpha, A." then .ok []
      else if n = cleanName "Beta, B." then .ok [authorB]
      else .ok [authorC]
    works := fun i => if i = authorB.id then worksB else [] }

/-- C8 — counterexample to the claim as stated: in the 3-researcher scenario
the not-found row (a) has no count fields at all (they are absent from the
dict, hence NaN in the final table — not zero), and the found-no-works row
(c) likewise has no `total_works` field (its zero publication count is the
`openalex_pubs` field). -/
theorem end_to_end_missing_count_fields :
    ((process_sample envC8 CHECKPOINT_INTERVAL rosterC8 none).results.getD 0 []).lookup
        "openalex_found" = some (.b false) ∧
    ((process_sample envC8 CHECKPOINT_INTERVAL rosterC8 none).results.getD 0 []).lookup
        "total_works" = none ∧
    ((process_sample envC8 CHECKPOINT_INTERVAL rosterC8 none).results.getD 0 []).lookup
        "books_count" = none ∧
    ((process_sample envC8 CHECKPOINT_INTERVAL rosterC8 none).results.getD 2 []).lookup
        "openalex_found" = some (.b true) ∧
    ((process_sample envC8 CHECKPOINT_INTERVAL rosterC8 none).results.getD 2 []).lookup
        "total_works" = none :=
  ⟨rfl, rfl, rfl, rfl, rfl⟩

/-- C8 — amended.  Running the batch on the 3-researcher roster against the
mocked responses: (a) the unmatched name yields a row with
`openalex_found=False`, `match_quality='not_found'` and no count fields;
(b) the researcher with the Elsevier-tagged article (10 citations) and the
unclassified book (5 citations) yields `total_works=2`, `total_citations=15`,
`books_count=1`, `books_pct=50`, `elsevier_count=1`, `elsevier_pct=50`;
(c) the researcher with an empty works list yields `openalex_found=True`,
`openalex_pubs=0` and `match_quality='found_no_works'`, distinct from (a). -/
theorem end_to_end_scenario :
    (process_sample envC8 CHECKPOINT_INTERVAL rosterC8 none).results.length = 3 ∧
    ((process_sample envC8 CHECKPOINT_INTERVAL rosterC8 none).results.getD 0 []).lookup
        "openalex_found" = some (.b false) ∧
    ((process_sample envC8 CHECKPOINT_INTERVAL rosterC8 none).results.getD 0 []).lookup
        "match_quality" = some (.s "not_found") ∧
    ((process_sample envC8 CHECKPOINT_INTERVAL rosterC8 none).results.getD 1 []).lookup
        "total_works" = some (.n 2) ∧
    ((process_sample envC8 CHECKPOINT_INTERVAL rosterC8 none).results.getD 1 []).lookup
        "total_citations" = some (.n 15) ∧
    ((process_sample envC8 CHECKPOINT_INTERVAL rosterC8 none).results.getD 1 []).lookup
        "books_count" = some (.n 1) ∧
    ((process_sample envC8 CHECKPOINT_INTERVAL rosterC8 none).results.getD 1 []).lookup
        "books_pct" = some (.n 50) ∧
    ((process_sample envC8 CHECKPOINT_INTERVAL rosterC8 none).results.getD 1 []).lookup
        "elsevier_count" = some (.n 1) ∧
    ((process_sample envC8 CHECKPOINT_INTERVAL rosterC8 none).results.getD 1 []).lookup
        "elsevier_pct" = some (.n 50) ∧
    ((process_sample envC8 CHECKPOINT_INTERVAL rosterC8 none).results.getD 1 []).lookup
        "openalex_found" = some (.b true) ∧
    ((process_sample envC8 CHECKPOINT_INTERVAL rosterC8 none).results.getD 2 []).lookup
        "openalex_found" = some (.b true) ∧
    ((process_sample envC8 CHECKPOINT_INTERVAL rosterC8 none).results.getD 2 []).lookup
        "openalex_pubs" = some (.n 0) ∧
    ((process_sample envC8 CHECKPOINT_INTERVAL rosterC8 none).results.getD 2 []).lookup
        "match_quality" = some (.s "found_no_works") ∧
    (process_sample envC8 CHECKPOINT_INTERVAL rosterC8 none).results.getD 2 [] ≠
      (process_sample envC8 CHECKPOINT_INTERVAL rosterC8 none).results.getD 0 [] := by
  have hw2 : totalWorks worksB = 2 := rfl
  have hc15 : totalCitations worksB = 15 := rfl
  have hb1 : booksCount worksB = 1 := rfl
  have he1 : groupCount "Elsevier" worksB = 1 := rfl
  refine ⟨rfl, rfl, rfl, ?_, ?_, ?_, ?_, ?_, ?_, rfl, rfl, rfl, rfl, ?_⟩
  · show some (Val.n ((totalWorks worksB : Rat))) = some (.n 2)
    rw [hw2]
    norm_num
  · show some (Val.n ((totalCitations worksB : Rat))) = some (.n 15)
    rw [hc15]
    norm_num
  · show some (Val.n ((booksCount worksB : Rat))) = some (.n 1)
    rw [hb1]
    norm_num
  · show some (Val.n (pct (booksCount worksB) (totalWorks worksB))) = some (.n 50)
    rw [hb1, hw2]
    norm_num [pct]
  · show some (Val.n ((groupCount "Elsevier" worksB : Rat))) = some (.n 1)
    rw [he1]
    norm_num
  · show some (Val.n (pct (groupCount "Elsevier" worksB) (totalWorks worksB))) = some (.n 50)
    rw [he1, hw2]
    norm_num [pct]
  · intro h
    have h1 : ((process_sample envC8 CHECKPOINT_INTERVAL rosterC8 none).results.getD 2 []).lookup
        "openalex_found" = some (Val.b true) := rfl
    rw [h] at h1
    have h0 : ((process_sample envC8 CHECKPOINT_INTERVAL rosterC8 none).results.getD 0 []).lookup
        "openalex_found" = some (Val.b false) := rfl
    rw [h0] at h1
    exact absurd h1 (by decide)

theorem processRow_good_flag {env : Env} {r : RRow} (h : rowOutcome env r = .good) :
    (processRow env r).lookup "openalex_found" = some (.b true) := by
  unfold rowOutcome at h
  unfold processRow
  cases hs : search_openalex_author env r.authfull r.institution with
  | none =>
      rw [hs] at h
      exact Outcome.noConfusion h
  | some a =>
      rw [hs] at h
      have h' : (if env.works a.id = [] then Outcome.foundNoWorks else Outcome.good) =
          Outcome.good := h
      show (if env.works a.id = [] then foundNoWorksRow r a
          else goodRow r a (env.works a.id)).lookup "openalex_found" = some (Val.b true)
      by_cases hw : env.works a.id = []
      · rw [if_pos hw] at h'
        exact Outcome.noConfusion h'
      · rw [if_neg hw]
        rfl

/-- `found = results_df[results_df['openalex_found'] == True]` of `main`. -/
def foundCount (rows : List Row) : Nat :=
  rows.countP (fun row => decide (row.lookup "openalex_found" = some (.b true)))

structure MainResult where
  outputFile : Option (List Row)
  cpFile : Option (List Row)
  crashed : Bool

/-- The file effects of `main` of the comprehensive script: run
`process_sample`, write the final CSV unconditionally, then print the summary
— whose matching-percentage line divides by `len(results_df)` and raises on an
empty result set (`crashed`) — and remove the checkpoint file only inside the
`if len(found) > 0:` block. -/
def mainRun (env : Env) (roster : List RRow) (cpFile0 : Option (List Row)) : MainResult :=
  if (process_sample env CHECKPOINT_INTERVAL roster cpFile0).results.length = 0 then
    { outputFile := some (process_sample env CHECKPOINT_INTERVAL roster cpFile0).results
      cpFile := (process_sample env CHECKPOINT_INTERVAL roster cpFile0).cp
      crashed := true }
  else
    { outputFile := some (process_sample env CHECKPOINT_INTERVAL roster cpFile0).results
      cpFile :=
        if 0 < foundCount (process_sample env CHECKPOINT_INTERVAL roster cpFile0).results
        then none else (process_sample env CHECKPOINT_INTERVAL roster cpFile0).cp
      crashed := false }

theorem foundCount_pos_of_good (env : Env) (roster : List RRow) (j : Nat) (hj0 : 0 < j)
    (hjlen : j ≤ roster.length)
    (hgood : rowOutcome env (roster.getD (j - 1) default) = .good)
    (rows : List Row) (hrows : rows = roster.map (processRow env)) :
    0 < foundCount rows := by
  refine List.countP_pos.mpr ⟨processRow env (roster.getD (j - 1) default), ?_, ?_⟩
  · rw [hrows]
    have hlt : j - 1 < roster.length := by omega
    rw [List.getD_eq_getElem _ _ hlt]
    exact List.mem_map_of_mem _ (List.getElem_mem hlt)
  · rw [processRow_good_flag hgood]
    simp

/-- C9 — confirmed.  For every reachable initial checkpoint state (absent, or
a flushed prefix image whose flush row was good), completing the full roster
writes the final result list to the permanent output file and ends with the
checkpoint file removed: any surviving checkpoint implies a good row in the
final results, making `len(found) > 0`, so the removal branch runs.  During
the row loop itself an existing checkpoint file is never deleted (flushes only
overwrite it), so deletion can only happen after the roster completes. -/
theorem completion_writes_output_deletes_checkpoint (env : Env) (roster : List RRow)
    (cp0 : Option (List Row))
    (hreach : cp0 = none ∨ ∃ j, 0 < j ∧ j ≤ roster.length ∧
        rowOutcome env (roster.getD (j - 1) default) = .good ∧
        cp0 = some ((roster.take j).map (processRow env))) :
    (mainRun env roster cp0).outputFile =
      some ((process_sample env CHECKPOINT_INTERVAL roster cp0).results) ∧
    (mainRun env roster cp0).cpFile = none ∧
    (cp0 = none →
      (process_sample env CHECKPOINT_INTERVAL roster cp0).results =
        roster.map (processRow env)) ∧
    (∀ (rest : List RRow) (idx : Nat) (st : RunState) (rows : List Row),
      st.cp = some rows → (stepLoop env CHECKPOINT_INTERVAL rest idx st).cp ≠ none) := by
  refine ⟨?_, ?_, ?_, ?_⟩
  · unfold mainRun
    by_cases hl : (process_sample env CHECKPOINT_INTERVAL roster cp0).results.length = 0
    · rw [if_pos hl]
    · rw [if_neg hl]
  · rcases hreach with hnone | ⟨j, hj0, hjlen, hgood, hcpv⟩
    · subst hnone
      have hres : (process_sample env CHECKPOINT_INTERVAL roster none).results =
          roster.map (processRow env) := by
        show (stepLoop env CHECKPOINT_INTERVAL roster 0 initState).results = _
        rw [stepLoop_results]
        rfl
      unfold mainRun
      by_cases hl : (process_sample env CHECKPOINT_INTERVAL roster none).results.length = 0
      · rw [if_pos hl]
        rw [hres, List.length_map] at hl
        have hroster : roster = [] := List.length_eq_zero.mp hl
        subst hroster
        rfl
      · rw [if_neg hl]
        have hinv := stepLoop_invariant env CHECKPOINT_INTERVAL roster roster 0 initState
          (List.drop_zero _) (by simp [initState]) (Or.inl rfl)
        rcases hinv.2 with hcpn | ⟨j, hj0, hjm, hjlen2, hjk, hgood, hcpv⟩
        · by_cases hf : 0 < foundCount (process_sample env CHECKPOINT_INTERVAL roster none).results
          · rw [if_pos hf]
          · rw [if_neg hf]
            exact hcpn
        · rw [if_pos (foundCount_pos_of_good env roster j hj0 hjlen2 hgood _ hres)]
    · have hlenrows : ((roster.take j).map (processRow env)).length = j := by
        rw [List.length_map, List.length_take, min_eq_left hjlen]
      have hres : (process_sample env CHECKPOINT_INTERVAL roster cp0).results =
          roster.map (processRow env) := by
        rw [hcpv]
        show (stepLoop env CHECKPOINT_INTERVAL
          (roster.drop ((roster.take j).map (processRow env)).length)
          ((roster.take j).map (processRow env)).length _).results = _
        rw [stepLoop_results]
        show (roster.take j).map (processRow env) ++
          (roster.drop ((roster.take j).map (processRow env)).length).map (processRow env) = _
        rw [hlenrows, ← List.map_append, List.take_append_drop]
      have hl : ¬ (process_sample env CHECKPOINT_INTERVAL roster cp0).results.length = 0 := by
        rw [hres, List.length_map]
        omega
      unfold mainRun
      rw [if_neg hl, if_pos (foundCount_pos_of_good env roster j hj0 hjlen hgood _ hres)]
  · intro h
    subst h
    show (stepLoop env CHECKPOINT_INTERVAL roster 0 initState).results = _
    rw [stepLoop_results]
    rfl
  · intro rest idx st rows h
    exact stepLoop_cp_stays env CHECKPOINT_INTERVAL rest idx st rows h

/-- C9 — witness: a fresh 1-row run (one not-found row): the output file holds
the single row and no checkpoint file remains. -/
theorem completion_writes_output_deletes_checkpoint_witness :
    (mainRun envNotFound [rDemo] none).outputFile =
      some ((process_sample envNotFound CHECKPOINT_INTERVAL [rDemo] none).results) ∧
    (mainRun envNotFound [rDemo] none).cpFile = none :=
  ⟨(completion_writes_output_deletes_checkpoint envNotFound [rDemo] none (Or.inl rfl)).1,
   (completion_writes_output_deletes_checkpoint envNotFound [rDemo] none (Or.inl rfl)).2.1⟩
